import Mathlib

/-!
Verification of `psi4/driver/procrouting/dft_funcs/dict_builder.py`.

The Python module builds a registry of DFT functional specifications
(dictionaries), expands dispersion-corrected variants from the external
`dashcoeff` coefficient table, validates a specification with
`check_consistency`, and constructs a finalized `core.SuperFunctional`
from a validated specification.

Python dictionaries with a fixed key set are embedded as structures whose
fields are `Option`-valued (a `none` field models an absent key); dictionaries
used as ordered key-value maps are embedded as association lists in insertion
order (Python 3.7 dict iteration order).  Floating point scalars are embedded
as rationals: the code only moves these values around, it never computes with
them except for the sum and difference of hybrid coefficients.  Exceptions are
embedded with `Except`; the distinct raise sites of the source are named by
`ErrKind`.  The external C++ objects (`core.SuperFunctional`,
`core.LibXCFunctional`) and the external `dashcoeff` table are not part of the
Python source; they are modelled from the spec as explicit records and
parameters (see `SuperFunctional`, `LibXCEnv`, `DashTable`).
-/

/-- Value stored under the `citation` key of a dispersion dictionary: the
source stores either a string or the Python literal `False` (the absent
sentinel written by `build_superfunctional_from_dictionary`). -/
inductive CitationVal where
  | ofStr (v : String) : CitationVal
  | falseLit : CitationVal
deriving DecidableEq, Repr

/-- Row of the external `dashcoeff` table: coefficient parameters plus an
optional `citation` key (the table itself is external data; its rows are
opaque to the code except for the `citation` key). -/
structure DashRow where
  citation : Option String := none
  params : List (String × ℚ) := []
deriving DecidableEq, Repr

/-- Dispersion dictionary attached to a functional specification
(`func["dispersion"]`), with `type`, `params` and optional `citation` keys. -/
structure DispersionDict where
  type : String
  params : DashRow
  citation : Option CitationVal := none
deriving DecidableEq, Repr

/-- Parameters of one `x_functionals` entry. -/
structure XParams where
  use_libxc : Option Bool := none
  tweak : Option (List ℚ) := none
  alpha : Option ℚ := none
  omega : Option ℚ := none
deriving DecidableEq, Repr

/-- Parameters of the `x_hf` entry; `use_libxc` here names a component id. -/
structure XHF where
  alpha : Option ℚ := none
  beta : Option ℚ := none
  omega : Option ℚ := none
  use_libxc : Option String := none
deriving DecidableEq, Repr

/-- Parameters of one `c_functionals` entry. -/
structure CParams where
  tweak : Option (List ℚ) := none
  alpha : Option ℚ := none
deriving DecidableEq, Repr

/-- Parameters of the `c_mp2` entry. -/
structure CMP2 where
  alpha : Option ℚ := none
  ss : Option ℚ := none
  os : Option ℚ := none
deriving DecidableEq, Repr

/-- One functional definition dictionary from the definition source.  Only
the keys of `xc_functionals` are ever consulted by the code, so that mapping
is embedded as its key list. -/
structure FunctionalSpec where
  name : String
  /-- The `alias` key (the word `alias` is reserved in this Lean setup). -/
  aliases : Option (List String) := none
  xc_functionals : Option (List String) := none
  x_functionals : Option (List (String × XParams)) := none
  x_hf : Option XHF := none
  c_functionals : Option (List (String × CParams)) := none
  c_mp2 : Option CMP2 := none
  citation : Option String := none
  description : Option String := none
  dispersion : Option DispersionDict := none
deriving DecidableEq, Repr

/-- Raise sites of `check_consistency`, in source order.  Each corresponds to
one `raise ValidationError(... % (name))` statement; the spec names them
`DuplicateExchangeSpec`, ..., `UnresolvedHybridReference`. -/
inductive ErrKind where
  | duplicateExchangeSpec
  | duplicateCorrelationSpec
  | missingExchangeSpec
  | missingCorrelationSpec
  | duplicateHybridRequest
  | inconsistentExchangeSpec
  | unresolvedHybridReference
deriving DecidableEq, Repr

/-- Exceptions the embedded code can raise.  `validationError k` models a
successfully constructed `ValidationError` for the raise site `k`;
`nameErrorAt k` models the `NameError` Python actually raises at site `k`,
because every message in `check_consistency` interpolates the unbound
variable `name` (the parameter is called `func_name`), so evaluation of the
format expression fails before the `ValidationError` is constructed.
`keyError` models a Python `KeyError`; `nameErrorXcName` models the
`NameError` for the unbound loop variable `xc_name` when `xc_functionals`
is empty. -/
inductive PyError where
  | validationError (k : ErrKind)
  | nameErrorAt (k : ErrKind)
  | keyError
  | nameErrorXcName
deriving DecidableEq, Repr

/-- Python `str.upper()` restricted to the basic latin range, matching
`Char.toUpper`. -/
def upper (s : String) : String :=
  ⟨s.data.map Char.toUpper⟩

/-- Transcription of `get_functional_aliases`: the uppercased aliases (when
the `alias` key is present) followed by the uppercased name. -/
def get_functional_aliases (functional_dict : FunctionalSpec) : List String :=
  match functional_dict.aliases with
  | some al => al.map upper ++ [upper functional_dict.name]
  | none => [upper functional_dict.name]

/-- Transcription of the `dispersion_names` alias table, in insertion
order. -/
def dispersion_names : List (String × String) :=
  [("d2p4", "d2p4"), ("d2gr", "d2gr"), ("d3zero", "d3zero"), ("d3bj", "d3bj"),
   ("d3mzero", "d3mzero"), ("d3mbj", "d3mbj"), ("d", "d2p4"), ("d2", "d2p4"),
   ("d3", "d3zero"), ("d3m", "d3mzero")]

/-- The external `dashcoeff` table (from `psi4.driver.qcdb.dashparam`):
per dispersion scheme, an association list from functional key to
coefficient row.  The table is external input data, so it is a parameter
of the embedding. -/
abbrev DashTable : Type :=
  String → List (String × DashRow)

/-- Transcription of the loop body counting `use_libxc` requests in
`check_consistency`: for each item of `x_functionals`, the source tests
whether the literal string `"use_libxc"` is a KEY of the `x_functionals`
mapping (not of the item's parameters), and only then reads the item's
`use_libxc` parameter (a `KeyError` when that parameter is missing). -/
def countUseLibxcAux (keyList : List String) (acc : Nat) :
    List (String × XParams) → Except PyError Nat
  | [] => .ok acc
  | e :: rest =>
    if keyList.contains "use_libxc" then
      match e.2.use_libxc with
      | none => .error .keyError
      | some b => countUseLibxcAux keyList (if b then acc + 1 else acc) rest
    else countUseLibxcAux keyList acc rest

/-- Count of `use_libxc` requests as computed by `check_consistency`. -/
def countUseLibxc (xf : List (String × XParams)) : Except PyError Nat :=
  countUseLibxcAux (xf.map Prod.fst) 0 xf

/-- Transcription of the `2a`, `2b`, `2c` checks of `check_consistency`
(after the `use_libxc` count has been computed). -/
def checkHybrid (func_dictionary : FunctionalSpec) (use_libxc : Nat) :
    Except PyError Unit :=
  if use_libxc > 1 then
    .error (.nameErrorAt .duplicateHybridRequest)
  else if use_libxc == 1 && func_dictionary.x_hf.isSome then
    .error (.nameErrorAt .inconsistentExchangeSpec)
  else
    match func_dictionary.x_hf with
    | some hf =>
      match hf.use_libxc with
      | some ref =>
        match func_dictionary.x_functionals with
        | none => .error .keyError
        | some xf =>
          if !(xf.map Prod.fst).contains ref then
            .error (.nameErrorAt .unresolvedHybridReference)
          else .ok ()
      | none => .ok ()
    | none => .ok ()

/-- Transcription of `check_consistency(func_dictionary, func_name)`.  The
`func_name` parameter is accepted but unused by any reachable code: the
error messages reference the unbound variable `name`, so each raise site
produces a `NameError` (see `PyError.nameErrorAt`). -/
def check_consistency (func_dictionary : FunctionalSpec) (func_name : String) :
    Except PyError Unit :=
  let phase1 : Except PyError Unit :=
    if func_dictionary.xc_functionals.isSome then
      if func_dictionary.x_functionals.isSome || func_dictionary.x_hf.isSome then
        .error (.nameErrorAt .duplicateExchangeSpec)
      else if func_dictionary.c_functionals.isSome || func_dictionary.c_mp2.isSome then
        .error (.nameErrorAt .duplicateCorrelationSpec)
      else .ok ()
    else if !func_dictionary.x_functionals.isSome && !func_dictionary.x_hf.isSome then
      .error (.nameErrorAt .missingExchangeSpec)
    else if !func_dictionary.c_functionals.isSome && !func_dictionary.c_mp2.isSome then
      .error (.nameErrorAt .missingCorrelationSpec)
    else .ok ()
  match phase1 with
  | .error e => .error e
  | .ok _ =>
    let counted : Except PyError Nat :=
      match func_dictionary.x_functionals with
      | some xf => countUseLibxc xf
      | none => .ok 0
    match counted with
    | .error e => .error e
    | .ok n => checkHybrid func_dictionary n

/-- Modelled from the spec: behaviour of the external elementary-functional
factory (`core.LibXCFunctional`) and of `core.SuperFunctional.XC_build`,
which are not part of the Python source.  Per the spec's external-interface
contract, an elementary functional exposes a citation string, a description
string and a query for a camb-range-separated hybrid coefficient triple; the
bundled `XC_build` object exposes a gga-type query and a hybrid-mixing
query.  All are functions of the component id and the spin-restriction
flag. -/
structure LibXCEnv where
  citation : String → Bool → String
  description : String → Bool → String
  camCoef : String → Bool → (ℚ × ℚ × ℚ)
  xcIsGga : String → Bool → Bool
  xcXAlpha : String → Bool → ℚ

/-- Hybrid coefficient triple returned by `query_libxc("XC_HYB_CAM_COEF")`,
a dictionary with keys `ALPHA`, `BETA`, `OMEGA`. -/
structure CamTriple where
  ALPHA : ℚ
  BETA : ℚ
  OMEGA : ℚ
deriving DecidableEq, Repr

/-- Reads the triple for a component id from the environment. -/
def queryCam (env : LibXCEnv) (x_name : String) (restricted : Bool) : CamTriple :=
  ⟨(env.camCoef x_name restricted).1, (env.camCoef x_name restricted).2.1,
   (env.camCoef x_name restricted).2.2⟩

/-- Modelled from the spec: one elementary functional object
(`core.LibXCFunctional`) as configured by the builder — its component name
and the overrides applied through `set_alpha`, `set_omega`, `set_tweak`. -/
structure LibXCFunctional where
  name : String
  alpha : Option ℚ := none
  omega : Option ℚ := none
  tweak : Option (List ℚ) := none
deriving DecidableEq, Repr

/-- Modelled from the spec: the composite functional object
(`core.SuperFunctional`), which is not part of the Python source.  A blank
composite starts with zero hybrid mixing and zero MP2 scaling (the spec's
default-0.0 semantics), no components, and empty citation/description;
`xc_built` records the component id passed to `XC_build` when the bundled
path is taken. -/
structure SuperFunctional where
  xc_built : Option String := none
  is_gga : Bool := false
  x_alpha : ℚ := 0
  x_beta : ℚ := 0
  x_omega : ℚ := 0
  c_alpha : ℚ := 0
  c_ss_alpha : Option ℚ := none
  c_os_alpha : Option ℚ := none
  citation : String := ""
  description : String := ""
  x_functionals : List LibXCFunctional := []
  c_functionals : List LibXCFunctional := []
  max_points : Nat := 0
  deriv : Nat := 0
  name : String := ""
  allocated : Bool := false
deriving DecidableEq, Repr

/-- Accumulator threading through the blank-composite construction path:
the object under construction, the description and citation accumulation
lists, and the local variable `x_HF` holding the candidate hybrid triple. -/
structure BuildAcc where
  sup : SuperFunctional
  descr : List String
  citation : List String
  xHF : CamTriple
deriving Repr

/-- Transcription of one iteration of the `x_functionals` loop in
`build_superfunctional_from_dictionary`. -/
def processXEntry (env : LibXCEnv) (restricted : Bool) (acc : BuildAcc)
    (e : String × XParams) : BuildAcc :=
  let x_name := "XC_" ++ e.1
  let x_params := e.2
  let xf0 : LibXCFunctional := { name := x_name }
  let step1 : LibXCFunctional × CamTriple :=
    if x_params.use_libxc == some true then
      ({ xf0 with alpha := some 1 }, queryCam env x_name restricted)
    else (xf0, acc.xHF)
  let xf1 := step1.1
  let xf2 := match x_params.tweak with
    | some t => { xf1 with tweak := some t }
    | none => xf1
  let xf3 := match x_params.alpha with
    | some a => { xf2 with alpha := some a }
    | none => xf2
  let xf4 := match x_params.omega with
    | some w => { xf3 with omega := some w }
    | none => xf3
  let cit := env.citation x_name restricted
  let des := env.description x_name restricted
  { sup := { acc.sup with x_functionals := acc.sup.x_functionals ++ [xf4] },
    citation := if acc.citation.contains cit then acc.citation else acc.citation ++ [cit],
    descr := if acc.descr.contains des then acc.descr else acc.descr ++ [des],
    xHF := step1.2 }

/-- Transcription of the `x_hf` branch: applies the `alpha`/`beta`/`omega`
values to the composite when present; when `alpha` is absent the source
instead writes `x_params["alpha"] = 0.0` into the shared specification
dictionary (the returned `XHF` is the post-call value of that dictionary). -/
def applyXHF (env : LibXCEnv) (restricted : Bool) (acc : BuildAcc) (hf : XHF) :
    BuildAcc × XHF :=
  let acc1 := match hf.use_libxc with
    | some ref => { acc with xHF := queryCam env ("XC_" ++ ref) restricted }
    | none => acc
  let step2 : BuildAcc × XHF := match hf.alpha with
    | some a => ({ acc1 with sup := { acc1.sup with x_alpha := a } }, hf)
    | none => (acc1, { hf with alpha := some 0 })
  let acc2 := step2.1
  let acc3 := match hf.beta with
    | some b => { acc2 with sup := { acc2.sup with x_beta := b } }
    | none => acc2
  let acc4 := match hf.omega with
    | some w => { acc3 with sup := { acc3.sup with x_omega := w } }
    | none => acc3
  (acc4, step2.2)

/-- Transcription of one iteration of the `c_functionals` loop. -/
def processCEntry (env : LibXCEnv) (restricted : Bool) (acc : BuildAcc)
    (e : String × CParams) : BuildAcc :=
  let c_name := "XC_" ++ e.1
  let c_params := e.2
  let cf0 : LibXCFunctional := { name := c_name }
  let cf1 := match c_params.tweak with
    | some t => { cf0 with tweak := some t }
    | none => cf0
  let cf2 := match c_params.alpha with
    | some a => { cf1 with alpha := some a }
    | none => { cf1 with alpha := some 1 }
  let cit := env.citation c_name restricted
  let des := env.description c_name restricted
  { acc with
    sup := { acc.sup with c_functionals := acc.sup.c_functionals ++ [cf2] },
    citation := if acc.citation.contains cit then acc.citation else acc.citation ++ [cit],
    descr := if acc.descr.contains des then acc.descr else acc.descr ++ [des] }

/-- Transcription of the `c_mp2` branch. -/
def applyCMP2 (sup : SuperFunctional) (c_params : CMP2) : SuperFunctional :=
  let s1 := { sup with c_alpha := c_params.alpha.getD 0 }
  let s2 := match c_params.ss with
    | some v => { s1 with c_ss_alpha := some v }
    | none => s1
  match c_params.os with
  | some v => { s2 with c_os_alpha := some v }
  | none => s2

/-- Transcription of the blank-composite path (the `else` branch of the
`xc_functionals` test): returns the configured composite and the post-call
value of the specification dictionary (mutated when `x_hf` lacks `alpha`). -/
def buildBlankPath (env : LibXCEnv) (restricted : Bool) (d : FunctionalSpec) :
    SuperFunctional × FunctionalSpec :=
  let acc0 : BuildAcc := ⟨{}, [], [], ⟨0, 0, 0⟩⟩
  let acc1 := match d.x_functionals with
    | some xf => xf.foldl (processXEntry env restricted) acc0
    | none => acc0
  let step2 : BuildAcc × FunctionalSpec := match d.x_hf with
    | some hf =>
      let r := applyXHF env restricted acc1 hf
      (r.1, { d with x_hf := some r.2 })
    | none =>
      ({ acc1 with sup := { acc1.sup with
          x_alpha := acc1.xHF.ALPHA + acc1.xHF.BETA,
          x_beta := acc1.xHF.ALPHA - acc1.xHF.BETA,
          x_omega := acc1.xHF.OMEGA } }, d)
  let acc2 := step2.1
  let acc3 := match d.c_functionals with
    | some cf => cf.foldl (processCEntry env restricted) acc2
    | none => acc2
  let sup4 := match d.c_mp2 with
    | some p => applyCMP2 acc3.sup p
    | none => acc3.sup
  ({ sup4 with
      citation := String.intercalate "\n" acc3.citation,
      description := String.intercalate "\n" acc3.descr },
   step2.2)

/-- Transcription of the `xc_functionals` path: the loop over the keys of
`xc_functionals` leaves `xc_name` bound to the LAST iterated key; when the
mapping is empty the subsequent use of `xc_name` raises a `NameError`. -/
def buildXcPath (env : LibXCEnv) (name : String) (restricted : Bool)
    (xcKeys : List String) : Except PyError SuperFunctional :=
  match xcKeys.getLast? with
  | none => .error .nameErrorXcName
  | some xc_key =>
    let xc_name := "XC_" ++ xc_key
    let sup : SuperFunctional :=
      { xc_built := some xc_name,
        is_gga := env.xcIsGga xc_name restricted,
        x_alpha := env.xcXAlpha xc_name restricted }
    let descr := "    " ++ upper name ++ " " ++
      (if sup.is_gga then (if sup.x_alpha > 0 then "Hyb-GGA " else "GGA ") else "") ++
      "Exchange-Correlation Functional\n"
    .ok { sup with description := descr }

/-- Transcription of the top-level `citation`/`description` overrides. -/
def applyOverrides (d : FunctionalSpec) (sup : SuperFunctional) : SuperFunctional :=
  let s1 := match d.citation with
    | some c => { sup with citation := c }
    | none => sup
  match d.description with
  | some ds => { s1 with description := ds }
  | none => s1

/-- Transcription of the dispersion hand-off: when the specification carries
a `dispersion` dictionary whose `citation` key is absent, the source writes
`d_params["citation"] = False` into that shared dictionary and returns it;
otherwise the second return value is the `False` sentinel (here `none`). -/
def applyDispersion (d1 : FunctionalSpec) :
    Option DispersionDict × FunctionalSpec :=
  match d1.dispersion with
  | some dd =>
    let dd2 := { dd with citation := some (dd.citation.getD CitationVal.falseLit) }
    (some dd2, { d1 with dispersion := some dd2 })
  | none => (none, d1)

/-- Transcription of the finalization step (`set_max_points`, `set_deriv`,
`set_name(name.upper())`, `allocate`). -/
def finalizeSup (name : String) (npoints deriv : Nat) (sup : SuperFunctional) :
    SuperFunctional :=
  { sup with max_points := npoints, deriv := deriv, name := upper name,
             allocated := true }

/-- Transcription of `build_superfunctional_from_dictionary` applied to the
specification dictionary `d` found in the registry under `name`.  Returns
the finalized composite, the dispersion dictionary (or the absent sentinel)
and the post-call value of the specification dictionary `d` (which the
source mutates in place in two cases). -/
def buildFromSpec (env : LibXCEnv) (d : FunctionalSpec) (name : String)
    (npoints deriv : Nat) (restricted : Bool) :
    Except PyError (SuperFunctional × Option DispersionDict × FunctionalSpec) :=
  match check_consistency d name with
  | .error e => .error e
  | .ok _ =>
    match d.xc_functionals with
    | some xcKeys =>
      match buildXcPath env name restricted xcKeys with
      | .error e => .error e
      | .ok sup1 =>
        let sup2 := applyOverrides d sup1
        let r := applyDispersion d
        .ok (finalizeSup name npoints deriv sup2, r.1, r.2)
    | none =>
      let b := buildBlankPath env restricted d
      let sup2 := applyOverrides d b.1
      let r := applyDispersion b.2
      .ok (finalizeSup name npoints deriv sup2, r.1, r.2)

/-- The functional registry: a Python dictionary from name/alias strings to
specification dictionaries, embedded as an association list in which a new
binding is prepended (so the FIRST binding for a key is the most recent
write, matching dictionary overwrite semantics under `List.lookup`). -/
abbrev Registry : Type :=
  List (String × FunctionalSpec)

/-- Dictionary lookup (`functionals[name]`), exact string match. -/
def regLookup (reg : Registry) (k : String) : Option FunctionalSpec :=
  List.lookup k reg

/-- Plain registrations of one definition-source entry: every alias of the
parent functional is bound to the parent specification. -/
def plainPairs (d : FunctionalSpec) : List (String × FunctionalSpec) :=
  (get_functional_aliases d).map fun a => (a, d)

/-- Dispersion-corrected variant of a base specification for scheme `dt`
built from coefficient row `row`: a deep copy with `-<scheme>` appended to
the name and a fresh dispersion dictionary. -/
def mkVariant (d : FunctionalSpec) (dt : String) (row : DashRow) : FunctionalSpec :=
  { d with
    name := d.name ++ "-" ++ dt,
    dispersion := some { type := dt, params := row,
                         citation := row.citation.map CitationVal.ofStr } }

/-- Registrations produced by one coefficient-table row `(df, row)` of
scheme `dt` under short name `dn`: when the row's key matches an alias of
the base functional (case-insensitively, via uppercasing), the variant is
bound under `<alias>-<SHORTNAME>` for every alias. -/
def rowPairs (d : FunctionalSpec) (dn dt df : String) (row : DashRow) :
    List (String × FunctionalSpec) :=
  if (get_functional_aliases d).contains (upper df) then
    (get_functional_aliases d).map fun a => (a ++ "-" ++ upper dn, mkVariant d dt row)
  else []

/-- Registrations produced by scanning scheme `dt` of the coefficient table
under short name `dn`. -/
def schemePairs (dash : DashTable) (d : FunctionalSpec) (dn dt : String) :
    List (String × FunctionalSpec) :=
  (dash dt).flatMap fun e => rowPairs d dn dt e.1 e.2

/-- Registrations produced by the dispersion-expansion loops for one base
functional; empty when the functional is already dispersion corrected. -/
def dispersionPairs (dash : DashTable) (d : FunctionalSpec) :
    List (String × FunctionalSpec) :=
  if d.dispersion.isSome then []
  else dispersion_names.flatMap fun e => schemePairs dash d e.1 e.2

/-- All dictionary assignments performed while processing one
definition-source entry, in program order. -/
def writtenPairs (dash : DashTable) (d : FunctionalSpec) :
    List (String × FunctionalSpec) :=
  plainPairs d ++ dispersionPairs dash d

/-- Applies the assignments for one definition-source entry to the registry
(prepending each binding, see `Registry`). -/
def addFunctional (dash : DashTable) (reg : Registry) (d : FunctionalSpec) :
    Registry :=
  (writtenPairs dash d).foldl (fun r e => e :: r) reg

/-- Transcription of the module-level registry construction: processes every
definition-source entry in order against the coefficient table. -/
def build_functionals_registry (dash : DashTable) (source : List FunctionalSpec) :
    Registry :=
  source.foldl (addFunctional dash) []

/-- Transcription of `build_superfunctional_from_dictionary(name, npoints,
deriv, restricted)`: the initial `functionals[name]` dictionary lookup is an
exact (case-sensitive) string match raising `KeyError` on a miss. -/
def build_superfunctional_from_dictionary (env : LibXCEnv) (reg : Registry)
    (name : String) (npoints deriv : Nat) (restricted : Bool) :
    Except PyError (SuperFunctional × Option DispersionDict × FunctionalSpec) :=
  match regLookup reg name with
  | none => .error .keyError
  | some d => buildFromSpec env d name npoints deriv restricted

/-! Concrete fixtures used by counterexamples and witnesses. -/

/-- Concrete elementary-functional environment used for concrete runs. -/
def env0 : LibXCEnv :=
  { citation := fun n _ => "cit:" ++ n,
    description := fun n _ => "des:" ++ n,
    camCoef := fun _ _ => (2, 5, 7),
    xcIsGga := fun _ _ => false,
    xcXAlpha := fun _ _ => 0 }

/-- Empty coefficient table. -/
def dash0 : DashTable := fun _ => []

/-- Coefficient table whose `d3zero` scheme contains the key `b88`. -/
def dashB : DashTable := fun sch =>
  if sch = "d3zero" then [("b88", { citation := some "d3cite", params := [("s6", 1)] })]
  else []

/-- Specification with both `xc_functionals` and `x_functionals`. -/
def specDupX : FunctionalSpec :=
  { name := "f", xc_functionals := some ["b3lyp"], x_functionals := some [] }

/-- Specification with two `x_functionals` entries both flagging
`use_libxc`. -/
def specTwoLibxc : FunctionalSpec :=
  { name := "f",
    x_functionals := some [("a", { use_libxc := some true }),
                           ("b", { use_libxc := some true })],
    c_functionals := some [] }

/-- Specification with neither exchange nor correlation fields. -/
def specEmptyFields : FunctionalSpec := { name := "f" }

/-- Specification whose `x_hf` dictionary lacks the `alpha` key. -/
def specHFNoAlpha : FunctionalSpec :=
  { name := "f", x_hf := some {}, c_functionals := some [] }

/-- Specification with one hybrid-requesting exchange component. -/
def specOneLibxc : FunctionalSpec :=
  { name := "f", x_functionals := some [("pbe", { use_libxc := some true })],
    c_functionals := some [] }

/-- Specification with a two-component `xc_functionals` bundle. -/
def specXC : FunctionalSpec := { name := "f", xc_functionals := some ["one", "two"] }

/-- Expected composite for `buildFromSpec env0 specXC "f" 5 1 true`. -/
def supXC : SuperFunctional :=
  { xc_built := some "XC_two",
    description := "    F Exchange-Correlation Functional\n",
    max_points := 5, deriv := 1, name := "F", allocated := true }

/-- Expected composite for `buildFromSpec env0 specOneLibxc "f" 5 1 true`
(the mixing coefficients are written as the sums the source computes, so
that the run is checked by definitional unfolding). -/
def supOneLibxc : SuperFunctional :=
  { x_alpha := 2 + 5, x_beta := 2 - 5, x_omega := 7,
    citation := "cit:" ++ ("XC_" ++ "pbe"), description := "des:" ++ ("XC_" ++ "pbe"),
    x_functionals := [{ name := "XC_" ++ "pbe", alpha := some 1 }],
    max_points := 5, deriv := 1, name := "F", allocated := true }

/-- Specification with an `x_hf` dictionary carrying explicit values. -/
def specHFFull : FunctionalSpec :=
  { name := "f",
    x_hf := some { alpha := some 3, beta := some 5, omega := some 9 },
    c_functionals := some [] }

/-- Base specification named `B88` (no `alias` key, no dispersion). -/
def fB88 : FunctionalSpec :=
  { name := "B88", x_functionals := some [], c_functionals := some [] }

/-- Specification with canonical name `N` and aliases `A`, `B`. -/
def fAlias : FunctionalSpec :=
  { name := "N", aliases := some ["A", "B"], x_functionals := some [],
    c_functionals := some [] }

/-! Association-list lemmas for the registry. -/

/-- Folding cons over a list prepends its reverse. -/
theorem foldl_push {α : Type _} (l acc : List α) :
    l.foldl (fun r e => e :: r) acc = l.reverse ++ acc := by
  induction l generalizing acc with
  | nil => simp
  | cons h t ih => simp [List.foldl_cons, ih, List.reverse_cons, List.append_assoc]

/-- Unfolds `addFunctional` to a reversed-write-list prepend. -/
theorem addFunctional_eq (dash : DashTable) (reg : Registry) (d : FunctionalSpec) :
    addFunctional dash reg d = (writtenPairs dash d).reverse ++ reg :=
  foldl_push _ _

/-- Lookup misses when the key is not among the keys. -/
theorem lookup_eq_none_of_not_mem {α β : Type _} [BEq α] [LawfulBEq α]
    (l : List (α × β)) (k : α) (h : k ∉ l.map Prod.fst) :
    List.lookup k l = none := by
  induction l with
  | nil => rfl
  | cons p t ih =>
    obtain ⟨pk, pv⟩ := p
    simp only [List.map_cons, List.mem_cons, not_or] at h
    have hne : (k == pk) = false := beq_eq_false_iff_ne.mpr h.1
    simp [List.lookup, hne, ih h.2]

/-- Lookup over an append skips a left part that misses. -/
theorem lookup_append_of_none {α β : Type _} [BEq α] [LawfulBEq α]
    (l1 l2 : List (α × β)) (k : α) (h : List.lookup k l1 = none) :
    List.lookup k (l1 ++ l2) = List.lookup k l2 := by
  induction l1 with
  | nil => rfl
  | cons p t ih =>
    obtain ⟨pk, pv⟩ := p
    cases hk : (k == pk) with
    | true => simp [List.lookup, hk] at h
    | false =>
      simp only [List.lookup, hk] at h
      simp only [List.cons_append, List.lookup, hk]
      exact ih h

/-- Lookup over an append keeps a left hit. -/
theorem lookup_append_of_some {α β : Type _} [BEq α] [LawfulBEq α]
    (l1 l2 : List (α × β)) (k : α) (v : β) (h : List.lookup k l1 = some v) :
    List.lookup k (l1 ++ l2) = some v := by
  induction l1 with
  | nil => simp [List.lookup] at h
  | cons p t ih =>
    obtain ⟨pk, pv⟩ := p
    cases hk : (k == pk) with
    | true => simp only [List.lookup, hk] at h ⊢; simpa using h
    | false =>
      simp only [List.lookup, hk] at h
      simp only [List.cons_append, List.lookup, hk]
      exact ih h

/-- A key that is bound somewhere in the list is found, and the value found
is one of its bindings. -/
theorem lookup_mem_of_bound {α β : Type _} [BEq α] [LawfulBEq α]
    (l : List (α × β)) (k : α) (hb : k ∈ l.map Prod.fst) :
    ∃ v, List.lookup k l = some v ∧ (k, v) ∈ l := by
  induction l with
  | nil => simp at hb
  | cons p t ih =>
    obtain ⟨pk, pv⟩ := p
    by_cases hk : k = pk
    · subst hk
      exact ⟨pv, by simp [List.lookup], List.mem_cons_self _ _⟩
    · have hne : (k == pk) = false := beq_eq_false_iff_ne.mpr hk
      simp only [List.map_cons, List.mem_cons] at hb
      rcases hb with hb | hb
      · exact absurd hb hk
      · rcases ih hb with ⟨v, hv, hm⟩
        exact ⟨v, by simp [List.lookup, hne, hv], List.mem_cons_of_mem _ hm⟩

/-- When every binding of the list carries the same value, a bound key looks
up to that value. -/
theorem lookup_eq_of_all_eq {α β : Type _} [BEq α] [LawfulBEq α]
    (l : List (α × β)) (k : α) (v : β) (hb : k ∈ l.map Prod.fst)
    (hall : ∀ p ∈ l, p.2 = v) :
    List.lookup k l = some v := by
  rcases lookup_mem_of_bound l k hb with ⟨w, hw, hm⟩
  rw [hw]
  exact congrArg some (hall _ hm)

/-! Projection lemmas for the construction phases. -/

/-- An `x_functionals` iteration does not touch the overall `x_alpha`. -/
theorem processXEntry_x_alpha (env : LibXCEnv) (r : Bool) (acc : BuildAcc)
    (e : String × XParams) :
    (processXEntry env r acc e).sup.x_alpha = acc.sup.x_alpha := by
  simp [processXEntry]

/-- An `x_functionals` iteration does not touch the overall `x_beta`. -/
theorem processXEntry_x_beta (env : LibXCEnv) (r : Bool) (acc : BuildAcc)
    (e : String × XParams) :
    (processXEntry env r acc e).sup.x_beta = acc.sup.x_beta := by
  simp [processXEntry]

/-- An `x_functionals` iteration does not touch the overall `x_omega`. -/
theorem processXEntry_x_omega (env : LibXCEnv) (r : Bool) (acc : BuildAcc)
    (e : String × XParams) :
    (processXEntry env r acc e).sup.x_omega = acc.sup.x_omega := by
  simp [processXEntry]

/-- The whole `x_functionals` loop does not touch the overall `x_alpha`. -/
theorem foldlX_x_alpha (env : LibXCEnv) (r : Bool) (xf : List (String × XParams)) :
    ∀ acc : BuildAcc, (xf.foldl (processXEntry env r) acc).sup.x_alpha = acc.sup.x_alpha := by
  induction xf with
  | nil => intro acc; rfl
  | cons h t ih => intro acc; rw [List.foldl_cons, ih, processXEntry_x_alpha]

/-- The whole `x_functionals` loop does not touch the overall `x_beta`. -/
theorem foldlX_x_beta (env : LibXCEnv) (r : Bool) (xf : List (String × XParams)) :
    ∀ acc : BuildAcc, (xf.foldl (processXEntry env r) acc).sup.x_beta = acc.sup.x_beta := by
  induction xf with
  | nil => intro acc; rfl
  | cons h t ih => intro acc; rw [List.foldl_cons, ih, processXEntry_x_beta]

/-- The whole `x_functionals` loop does not touch the overall `x_omega`. -/
theorem foldlX_x_omega (env : LibXCEnv) (r : Bool) (xf : List (String × XParams)) :
    ∀ acc : BuildAcc, (xf.foldl (processXEntry env r) acc).sup.x_omega = acc.sup.x_omega := by
  induction xf with
  | nil => intro acc; rfl
  | cons h t ih => intro acc; rw [List.foldl_cons, ih, processXEntry_x_omega]

/-- Candidate-triple update performed by one `x_functionals` iteration. -/
def camStep (env : LibXCEnv) (r : Bool) (t : CamTriple) (e : String × XParams) :
    CamTriple :=
  if e.2.use_libxc == some true then queryCam env ("XC_" ++ e.1) r else t

/-- The candidate triple after one iteration. -/
theorem processXEntry_xHF (env : LibXCEnv) (r : Bool) (acc : BuildAcc)
    (e : String × XParams) :
    (processXEntry env r acc e).xHF = camStep env r acc.xHF e := by
  by_cases h : e.2.use_libxc == some true <;> simp [processXEntry, camStep, h]

/-- The candidate triple after the whole loop is the fold of `camStep`. -/
theorem foldlX_xHF (env : LibXCEnv) (r : Bool) (xf : List (String × XParams)) :
    ∀ acc : BuildAcc,
      (xf.foldl (processXEntry env r) acc).xHF = xf.foldl (camStep env r) acc.xHF := by
  induction xf with
  | nil => intro acc; rfl
  | cons h t ih => intro acc; rw [List.foldl_cons, List.foldl_cons, ih, processXEntry_xHF]

/-- With no hybrid request, the candidate triple is untouched. -/
theorem foldl_camStep_of_filter_nil (env : LibXCEnv) (r : Bool)
    (xf : List (String × XParams))
    (h : xf.filter (fun e => e.2.use_libxc == some true) = []) :
    ∀ t0 : CamTriple, xf.foldl (camStep env r) t0 = t0 := by
  induction xf with
  | nil => intro t0; rfl
  | cons p t ih =>
    intro t0
    rw [List.filter_cons] at h
    by_cases hp : p.2.use_libxc == some true
    · simp [hp] at h
    · rw [if_neg (by simpa using hp)] at h
      rw [List.foldl_cons]
      rw [show camStep env r t0 p = t0 from by simp [camStep, hp]]
      exact ih h t0

/-- With exactly one hybrid request, the candidate triple is the queried
triple of that entry. -/
theorem foldl_camStep_of_filter_single (env : LibXCEnv) (r : Bool)
    (xf : List (String × XParams)) (e : String × XParams)
    (h : xf.filter (fun e => e.2.use_libxc == some true) = [e]) :
    ∀ t0 : CamTriple, xf.foldl (camStep env r) t0 = queryCam env ("XC_" ++ e.1) r := by
  induction xf with
  | nil => simp at h
  | cons p t ih =>
    intro t0
    rw [List.filter_cons] at h
    by_cases hp : p.2.use_libxc == some true
    · rw [if_pos (by simpa using hp)] at h
      have hpe : p = e := (List.cons_eq_cons.mp h).1
      have ht : t.filter (fun e => e.2.use_libxc == some true) = [] :=
        (List.cons_eq_cons.mp h).2
      rw [List.foldl_cons, show camStep env r t0 p = queryCam env ("XC_" ++ p.1) r from by
        simp [camStep, hp]]
      rw [foldl_camStep_of_filter_nil env r t ht, hpe]
    · rw [if_neg (by simpa using hp)] at h
      rw [List.foldl_cons, show camStep env r t0 p = t0 from by simp [camStep, hp]]
      exact ih h t0

/-- A `c_functionals` iteration does not touch the hybrid mixing. -/
theorem processCEntry_x_fields (env : LibXCEnv) (r : Bool) (acc : BuildAcc)
    (e : String × CParams) :
    (processCEntry env r acc e).sup.x_alpha = acc.sup.x_alpha ∧
    (processCEntry env r acc e).sup.x_beta = acc.sup.x_beta ∧
    (processCEntry env r acc e).sup.x_omega = acc.sup.x_omega ∧
    (processCEntry env r acc e).sup.xc_built = acc.sup.xc_built := by
  refine ⟨?_, ?_, ?_, ?_⟩ <;> simp [processCEntry]

/-- The whole `c_functionals` loop does not touch the hybrid mixing. -/
theorem foldlC_x_fields (env : LibXCEnv) (r : Bool) (cf : List (String × CParams)) :
    ∀ acc : BuildAcc,
      (cf.foldl (processCEntry env r) acc).sup.x_alpha = acc.sup.x_alpha ∧
      (cf.foldl (processCEntry env r) acc).sup.x_beta = acc.sup.x_beta ∧
      (cf.foldl (processCEntry env r) acc).sup.x_omega = acc.sup.x_omega ∧
      (cf.foldl (processCEntry env r) acc).sup.xc_built = acc.sup.xc_built := by
  induction cf with
  | nil => intro acc; exact ⟨rfl, rfl, rfl, rfl⟩
  | cons h t ih =>
    intro acc
    rcases ih (processCEntry env r acc h) with ⟨h1, h2, h3, h4⟩
    rcases processCEntry_x_fields env r acc h with ⟨g1, g2, g3, g4⟩
    exact ⟨by rw [List.foldl_cons, h1, g1], by rw [List.foldl_cons, h2, g2],
           by rw [List.foldl_cons, h3, g3], by rw [List.foldl_cons, h4, g4]⟩

/-- The `c_mp2` branch does not touch the hybrid mixing. -/
theorem applyCMP2_x_fields (sup : SuperFunctional) (p : CMP2) :
    (applyCMP2 sup p).x_alpha = sup.x_alpha ∧
    (applyCMP2 sup p).x_beta = sup.x_beta ∧
    (applyCMP2 sup p).x_omega = sup.x_omega ∧
    (applyCMP2 sup p).xc_built = sup.xc_built := by
  cases hs : p.ss <;> cases ho : p.os <;>
    refine ⟨?_, ?_, ?_, ?_⟩ <;> simp [applyCMP2, hs, ho]

/-- The top-level overrides do not touch the hybrid mixing. -/
theorem applyOverrides_x_fields (d : FunctionalSpec) (sup : SuperFunctional) :
    (applyOverrides d sup).x_alpha = sup.x_alpha ∧
    (applyOverrides d sup).x_beta = sup.x_beta ∧
    (applyOverrides d sup).x_omega = sup.x_omega ∧
    (applyOverrides d sup).xc_built = sup.xc_built := by
  cases hc : d.citation <;> cases hd : d.description <;>
    refine ⟨?_, ?_, ?_, ?_⟩ <;> simp [applyOverrides, hc, hd]

/-- Finalization does not touch the hybrid mixing. -/
theorem finalizeSup_x_fields (nm : String) (np dv : Nat) (sup : SuperFunctional) :
    (finalizeSup nm np dv sup).x_alpha = sup.x_alpha ∧
    (finalizeSup nm np dv sup).x_beta = sup.x_beta ∧
    (finalizeSup nm np dv sup).x_omega = sup.x_omega ∧
    (finalizeSup nm np dv sup).xc_built = sup.xc_built := by
  refine ⟨?_, ?_, ?_, ?_⟩ <;> simp [finalizeSup]

/-- Hybrid mixing set by the `x_hf` branch: each coefficient comes from the
`x_hf` dictionary when present and is otherwise left as it was. -/
theorem applyXHF_x_fields (env : LibXCEnv) (r : Bool) (acc : BuildAcc) (hf : XHF) :
    ((applyXHF env r acc hf).1).sup.x_alpha =
      (match hf.alpha with | some a => a | none => acc.sup.x_alpha) ∧
    ((applyXHF env r acc hf).1).sup.x_beta =
      (match hf.beta with | some b => b | none => acc.sup.x_beta) ∧
    ((applyXHF env r acc hf).1).sup.x_omega =
      (match hf.omega with | some w => w | none => acc.sup.x_omega) ∧
    ((applyXHF env r acc hf).1).sup.xc_built = acc.sup.xc_built := by
  obtain ⟨ha, hb, hw, hu⟩ := hf
  cases ha <;> cases hb <;> cases hw <;> cases hu <;>
    refine ⟨?_, ?_, ?_, ?_⟩ <;> simp [applyXHF]

/-- The `x_hf` dictionary after the `x_hf` branch: `alpha` has been written
to `0.0` exactly when it was absent. -/
theorem applyXHF_snd (env : LibXCEnv) (r : Bool) (acc : BuildAcc) (hf : XHF) :
    (applyXHF env r acc hf).2 = { hf with alpha := some (hf.alpha.getD 0) } := by
  obtain ⟨ha, hb, hw, hu⟩ := hf
  cases ha <;> cases hb <;> cases hw <;> cases hu <;> simp [applyXHF]

/-! Shape lemmas for `buildFromSpec`. -/

/-- A successful build implies a successful validation. -/
theorem buildFromSpec_ok_check (env : LibXCEnv) (d : FunctionalSpec) (nm : String)
    (np dv : Nat) (r : Bool)
    (out : SuperFunctional × Option DispersionDict × FunctionalSpec)
    (hok : buildFromSpec env d nm np dv r = .ok out) :
    check_consistency d nm = .ok () := by
  unfold buildFromSpec at hok
  cases hc : check_consistency d nm with
  | error e => rw [hc] at hok; exact Except.noConfusion hok
  | ok u => cases u; rfl

/-- A successful validation with `x_hf` present forces `xc_functionals`
absent. -/
theorem check_ok_xhf_no_xc (d : FunctionalSpec) (nm : String)
    (hcheck : check_consistency d nm = .ok ()) (hhf : d.x_hf.isSome) :
    d.xc_functionals = none := by
  cases hxc : d.xc_functionals with
  | none => rfl
  | some l =>
    exfalso
    unfold check_consistency at hcheck
    simp [hxc, hhf] at hcheck

/-- Value of `buildFromSpec` on the blank-composite path. -/
theorem buildFromSpec_blank_eq (env : LibXCEnv) (d : FunctionalSpec) (nm : String)
    (np dv : Nat) (r : Bool) (hxc : d.xc_functionals = none)
    (hc : check_consistency d nm = .ok ()) :
    buildFromSpec env d nm np dv r =
      .ok (finalizeSup nm np dv (applyOverrides d (buildBlankPath env r d).1),
           (applyDispersion (buildBlankPath env r d).2).1,
           (applyDispersion (buildBlankPath env r d).2).2) := by
  unfold buildFromSpec
  rw [hc, hxc]

/-- Value of `buildFromSpec` on the bundled (`xc_functionals`) path. -/
theorem buildFromSpec_xc_eq (env : LibXCEnv) (d : FunctionalSpec) (nm : String)
    (np dv : Nat) (r : Bool) (xcKeys : List String)
    (hxc : d.xc_functionals = some xcKeys)
    (hc : check_consistency d nm = .ok ()) :
    buildFromSpec env d nm np dv r =
      match buildXcPath env nm r xcKeys with
      | .error e => .error e
      | .ok sup1 =>
        .ok (finalizeSup nm np dv (applyOverrides d sup1),
             (applyDispersion d).1, (applyDispersion d).2) := by
  unfold buildFromSpec
  rw [hc, hxc]

/-- A successful bundled build records `XC_` prefixed to the LAST iterated
component id. -/
theorem buildXcPath_ok (env : LibXCEnv) (nm : String) (r : Bool)
    (l : List String) (sup1 : SuperFunctional)
    (hok : buildXcPath env nm r l = .ok sup1) :
    ∃ k, l.getLast? = some k ∧ sup1.xc_built = some ("XC_" ++ k) := by
  unfold buildXcPath at hok
  cases hl : l.getLast? with
  | none => rw [hl] at hok; exact Except.noConfusion hok
  | some k =>
    rw [hl] at hok
    refine ⟨k, rfl, ?_⟩
    simp only [Except.ok.injEq] at hok
    rw [← hok]

/-! Key-shape lemmas for the registry. -/

/-- Strings without basic-latin lowercase letters. -/
def noLower (s : String) : Bool :=
  s.data.all fun c => !c.isLower

/-- Order on `UInt32` agrees with the order on the underlying numbers. -/
theorem uint32_le_iff_toNat_le (a b : UInt32) : a ≤ b ↔ a.toNat ≤ b.toNat := by
  rw [UInt32.le_def, BitVec.le_def]
  rfl

/-- Uppercasing a character never yields a lowercase letter. -/
theorem toUpper_not_isLower (c : Char) : (c.toUpper).isLower = false := by
  unfold Char.toUpper
  by_cases h : c.toNat ≥ 97 ∧ c.toNat ≤ 122
  · rw [if_pos h]
    obtain ⟨h1, h2⟩ := h
    set n := c.toNat with hn
    interval_cases n <;> decide
  · rw [if_neg h]
    cases hl : c.isLower with
    | false => rfl
    | true =>
      exfalso
      apply h
      unfold Char.isLower at hl
      rw [Bool.and_eq_true] at hl
      obtain ⟨hg, hle⟩ := hl
      have hg' : (97 : UInt32) ≤ c.val := of_decide_eq_true hg
      have hle' : c.val ≤ (122 : UInt32) := of_decide_eq_true hle
      exact ⟨(uint32_le_iff_toNat_le _ _).mp hg', (uint32_le_iff_toNat_le _ _).mp hle'⟩

/-- Uppercased strings carry no lowercase letters. -/
theorem noLower_upper (s : String) : noLower (upper s) = true := by
  unfold noLower upper
  rw [List.all_eq_true]
  intro c hc
  rw [show (String.mk (s.data.map Char.toUpper)).data = s.data.map Char.toUpper from rfl,
      List.mem_map] at hc
  rcases hc with ⟨c0, _, rfl⟩
  simp [toUpper_not_isLower]

/-- `noLower` distributes over append. -/
theorem noLower_append (s t : String) :
    noLower (s ++ t) = (noLower s && noLower t) := by
  unfold noLower
  rw [String.data_append, List.all_append]

/-- Every alias produced by `get_functional_aliases` is an uppercased
string. -/
theorem aliases_are_upper (d : FunctionalSpec) (a : String)
    (h : a ∈ get_functional_aliases d) : ∃ s0, a = upper s0 := by
  unfold get_functional_aliases at h
  cases hal : d.aliases with
  | none => rw [hal] at h; simp at h; exact ⟨d.name, h⟩
  | some al =>
    rw [hal] at h
    rw [List.mem_append, List.mem_map] at h
    rcases h with ⟨s0, _, rfl⟩ | h
    · exact ⟨s0, rfl⟩
    · simp at h; exact ⟨d.name, h⟩

/-- Membership in `plainPairs`. -/
theorem mem_plainPairs (d : FunctionalSpec) (k : String) (v : FunctionalSpec)
    (h : (k, v) ∈ plainPairs d) : k ∈ get_functional_aliases d ∧ v = d := by
  unfold plainPairs at h
  rw [List.mem_map] at h
  rcases h with ⟨a, ha, heq⟩
  rw [Prod.mk.injEq] at heq
  exact ⟨heq.1 ▸ ha, heq.2.symm⟩

/-- Characterisation of the bindings written by the dispersion-expansion
loops. -/
theorem mem_dispersionPairs (dash : DashTable) (F : FunctionalSpec)
    (k : String) (v : FunctionalSpec) (h : (k, v) ∈ dispersionPairs dash F) :
    ∃ e ∈ dispersion_names, ∃ p ∈ dash e.2,
      (get_functional_aliases F).contains (upper p.1) = true ∧
      ∃ a ∈ get_functional_aliases F,
        k = a ++ "-" ++ upper e.1 ∧ v = mkVariant F e.2 p.2 := by
  unfold dispersionPairs at h
  by_cases hd : F.dispersion.isSome
  · rw [if_pos hd] at h; simp at h
  · rw [if_neg hd] at h
    rw [List.mem_flatMap] at h
    rcases h with ⟨e, he, h⟩
    unfold schemePairs at h
    rw [List.mem_flatMap] at h
    rcases h with ⟨p, hp, h⟩
    unfold rowPairs at h
    by_cases hc : (get_functional_aliases F).contains (upper p.1)
    · rw [if_pos hc] at h
      rw [List.mem_map] at h
      rcases h with ⟨a, ha, heq⟩
      rw [Prod.mk.injEq] at heq
      exact ⟨e, he, p, hp, hc, a, ha, heq.1.symm, heq.2.symm⟩
    · rw [if_neg hc] at h; simp at h

/-- Existence of the composite binding for a matching coefficient row. -/
theorem variant_mem_dispersionPairs (dash : DashTable) (F : FunctionalSpec)
    (sn s df : String) (row : DashRow) (a : String)
    (h1 : F.dispersion = none) (h2 : (sn, s) ∈ dispersion_names)
    (h3 : (df, row) ∈ dash s)
    (h3b : (get_functional_aliases F).contains (upper df) = true)
    (h4 : a ∈ get_functional_aliases F) :
    (a ++ "-" ++ upper sn, mkVariant F s row) ∈ dispersionPairs dash F := by
  unfold dispersionPairs
  rw [if_neg (by rw [h1]; simp)]
  rw [List.mem_flatMap]
  refine ⟨(sn, s), h2, ?_⟩
  unfold schemePairs
  rw [List.mem_flatMap]
  refine ⟨(df, row), h3, ?_⟩
  unfold rowPairs
  rw [if_pos h3b, List.mem_map]
  exact ⟨a, h4, rfl⟩

/-- Keys written while processing one definition-source entry carry no
lowercase letters. -/
theorem noLower_writtenPairs (dash : DashTable) (d : FunctionalSpec)
    (k : String) (v : FunctionalSpec) (h : (k, v) ∈ writtenPairs dash d) :
    noLower k = true := by
  unfold writtenPairs at h
  rw [List.mem_append] at h
  rcases h with h | h
  · rcases mem_plainPairs d k v h with ⟨hk, _⟩
    rcases aliases_are_upper d k hk with ⟨s0, rfl⟩
    exact noLower_upper s0
  · rcases mem_dispersionPairs dash d k v h with ⟨e, _, p, _, _, a, ha, hk, _⟩
    rcases aliases_are_upper d a ha with ⟨s0, rfl⟩
    rw [hk, noLower_append, noLower_append, noLower_upper, noLower_upper]
    rfl

/-- Lookup in the registry after processing later entries that never bind
the key. -/
theorem regLookup_foldl_post (dash : DashTable) (post : List FunctionalSpec)
    (k : String) :
    ∀ reg : Registry,
      (∀ G ∈ post, k ∉ (writtenPairs dash G).map Prod.fst) →
      regLookup (post.foldl (addFunctional dash) reg) k = regLookup reg k := by
  induction post with
  | nil => intro reg _; rfl
  | cons G t ih =>
    intro reg hfresh
    rw [List.foldl_cons, ih _ fun H hH => hfresh H (List.mem_cons_of_mem _ hH)]
    unfold regLookup
    rw [addFunctional_eq]
    apply lookup_append_of_none
    apply lookup_eq_none_of_not_mem
    rw [List.map_reverse, List.mem_reverse]
    exact hfresh G (List.mem_cons_self _ _)

/-- Decomposes the registry construction around one definition-source
entry. -/
theorem buildRegistry_decomp (dash : DashTable) (pre : List FunctionalSpec)
    (F : FunctionalSpec) (post : List FunctionalSpec) :
    build_functionals_registry dash (pre ++ F :: post) =
      post.foldl (addFunctional dash)
        (addFunctional dash (build_functionals_registry dash pre) F) := by
  unfold build_functionals_registry
  rw [List.foldl_append, List.foldl_cons]

/-- After processing entry `F`, a key bound by its dispersion expansion
looks up to one of the dispersion bindings. -/
theorem regLookup_addFunctional_composite (dash : DashTable) (reg : Registry)
    (F : FunctionalSpec) (k : String)
    (hb : k ∈ (dispersionPairs dash F).map Prod.fst) :
    ∃ v, regLookup (addFunctional dash reg F) k = some v ∧
         (k, v) ∈ dispersionPairs dash F := by
  unfold regLookup
  rw [addFunctional_eq]
  unfold writtenPairs
  rw [List.reverse_append, List.append_assoc]
  have hb' : k ∈ ((dispersionPairs dash F).reverse).map Prod.fst := by
    rw [List.map_reverse, List.mem_reverse]; exact hb
  rcases lookup_mem_of_bound _ k hb' with ⟨v, hv, hm⟩
  exact ⟨v, lookup_append_of_some _ _ _ _ hv, List.mem_reverse.mp hm⟩

/-- After processing entry `F`, a plain alias key that its dispersion
expansion never binds looks up to `F` itself. -/
theorem regLookup_addFunctional_plain (dash : DashTable) (reg : Registry)
    (F : FunctionalSpec) (k : String)
    (hk : k ∈ get_functional_aliases F)
    (hfresh : k ∉ (dispersionPairs dash F).map Prod.fst) :
    regLookup (addFunctional dash reg F) k = some F := by
  unfold regLookup
  rw [addFunctional_eq]
  unfold writtenPairs
  rw [List.reverse_append, List.append_assoc]
  rw [lookup_append_of_none _ _ _ (lookup_eq_none_of_not_mem _ _ (by
    rw [List.map_reverse, List.mem_reverse]; exact hfresh))]
  apply lookup_append_of_some
  apply lookup_eq_of_all_eq
  · rw [List.map_reverse, List.mem_reverse]
    unfold plainPairs
    rw [List.map_map]
    simpa using hk
  · intro p hp
    rw [List.mem_reverse] at hp
    unfold plainPairs at hp
    rw [List.mem_map] at hp
    rcases hp with ⟨a, _, rfl⟩
    rfl

/-! Individual projection corollaries, in rewriting-friendly form. -/

/-- Overall `x_alpha` is preserved by the `c_functionals` loop. -/
theorem foldlC_x_alpha (env : LibXCEnv) (r : Bool) (cf : List (String × CParams))
    (acc : BuildAcc) :
    (cf.foldl (processCEntry env r) acc).sup.x_alpha = acc.sup.x_alpha :=
  (foldlC_x_fields env r cf acc).1

/-- Overall `x_beta` is preserved by the `c_functionals` loop. -/
theorem foldlC_x_beta (env : LibXCEnv) (r : Bool) (cf : List (String × CParams))
    (acc : BuildAcc) :
    (cf.foldl (processCEntry env r) acc).sup.x_beta = acc.sup.x_beta :=
  (foldlC_x_fields env r cf acc).2.1

/-- Overall `x_omega` is preserved by the `c_functionals` loop. -/
theorem foldlC_x_omega (env : LibXCEnv) (r : Bool) (cf : List (String × CParams))
    (acc : BuildAcc) :
    (cf.foldl (processCEntry env r) acc).sup.x_omega = acc.sup.x_omega :=
  (foldlC_x_fields env r cf acc).2.2.1

/-- `xc_built` is preserved by the `c_functionals` loop. -/
theorem foldlC_xc_built (env : LibXCEnv) (r : Bool) (cf : List (String × CParams))
    (acc : BuildAcc) :
    (cf.foldl (processCEntry env r) acc).sup.xc_built = acc.sup.xc_built :=
  (foldlC_x_fields env r cf acc).2.2.2

/-- Overall `x_alpha` is preserved by the `c_mp2` branch. -/
theorem applyCMP2_x_alpha (sup : SuperFunctional) (p : CMP2) :
    (applyCMP2 sup p).x_alpha = sup.x_alpha :=
  (applyCMP2_x_fields sup p).1

/-- Overall `x_beta` is preserved by the `c_mp2` branch. -/
theorem applyCMP2_x_beta (sup : SuperFunctional) (p : CMP2) :
    (applyCMP2 sup p).x_beta = sup.x_beta :=
  (applyCMP2_x_fields sup p).2.1

/-- Overall `x_omega` is preserved by the `c_mp2` branch. -/
theorem applyCMP2_x_omega (sup : SuperFunctional) (p : CMP2) :
    (applyCMP2 sup p).x_omega = sup.x_omega :=
  (applyCMP2_x_fields sup p).2.2.1

/-- `xc_built` is preserved by the `c_mp2` branch. -/
theorem applyCMP2_xc_built (sup : SuperFunctional) (p : CMP2) :
    (applyCMP2 sup p).xc_built = sup.xc_built :=
  (applyCMP2_x_fields sup p).2.2.2

/-- Overall `x_alpha` after the `x_hf` branch. -/
theorem applyXHF_x_alpha (env : LibXCEnv) (r : Bool) (acc : BuildAcc) (hf : XHF) :
    ((applyXHF env r acc hf).1).sup.x_alpha =
      (match hf.alpha with | some a => a | none => acc.sup.x_alpha) :=
  (applyXHF_x_fields env r acc hf).1

/-- Overall `x_beta` after the `x_hf` branch. -/
theorem applyXHF_x_beta (env : LibXCEnv) (r : Bool) (acc : BuildAcc) (hf : XHF) :
    ((applyXHF env r acc hf).1).sup.x_beta =
      (match hf.beta with | some b => b | none => acc.sup.x_beta) :=
  (applyXHF_x_fields env r acc hf).2.1

/-- Overall `x_omega` after the `x_hf` branch. -/
theorem applyXHF_x_omega (env : LibXCEnv) (r : Bool) (acc : BuildAcc) (hf : XHF) :
    ((applyXHF env r acc hf).1).sup.x_omega =
      (match hf.omega with | some w => w | none => acc.sup.x_omega) :=
  (applyXHF_x_fields env r acc hf).2.2.1

/-! Field lemmas for `buildBlankPath`. -/

/-- Hybrid mixing of the composite when `x_hf` is present: each coefficient
is the `x_hf` value when given and `0.0` (the blank default) otherwise,
whatever the `x_functionals` entries requested. -/
theorem buildBlankPath_x_hf (env : LibXCEnv) (r : Bool) (d : FunctionalSpec)
    (hf : XHF) (hhf : d.x_hf = some hf) :
    (buildBlankPath env r d).1.x_alpha = hf.alpha.getD 0 ∧
    (buildBlankPath env r d).1.x_beta = hf.beta.getD 0 ∧
    (buildBlankPath env r d).1.x_omega = hf.omega.getD 0 := by
  cases hxf : d.x_functionals <;> cases hcf : d.c_functionals <;>
    cases hmp : d.c_mp2 <;>
    cases ha : hf.alpha <;> cases hb : hf.beta <;> cases hw : hf.omega <;>
    refine ⟨?_, ?_, ?_⟩ <;>
    simp [buildBlankPath, hhf, hxf, hcf, hmp, ha, hb, hw,
          foldlC_x_alpha, foldlC_x_beta, foldlC_x_omega,
          applyCMP2_x_alpha, applyCMP2_x_beta, applyCMP2_x_omega,
          applyXHF_x_alpha, applyXHF_x_beta, applyXHF_x_omega,
          foldlX_x_alpha, foldlX_x_beta, foldlX_x_omega]

/-- Hybrid mixing of the composite when `x_hf` is absent: the candidate
triple accumulated by the `x_functionals` loop is applied as
`(ALPHA+BETA, ALPHA-BETA, OMEGA)`. -/
theorem buildBlankPath_x_nohf (env : LibXCEnv) (r : Bool) (d : FunctionalSpec)
    (hhf : d.x_hf = none) :
    (buildBlankPath env r d).1.x_alpha =
      ((d.x_functionals.getD []).foldl (camStep env r) ⟨0, 0, 0⟩).ALPHA +
      ((d.x_functionals.getD []).foldl (camStep env r) ⟨0, 0, 0⟩).BETA ∧
    (buildBlankPath env r d).1.x_beta =
      ((d.x_functionals.getD []).foldl (camStep env r) ⟨0, 0, 0⟩).ALPHA -
      ((d.x_functionals.getD []).foldl (camStep env r) ⟨0, 0, 0⟩).BETA ∧
    (buildBlankPath env r d).1.x_omega =
      ((d.x_functionals.getD []).foldl (camStep env r) ⟨0, 0, 0⟩).OMEGA := by
  cases hxf : d.x_functionals <;> cases hcf : d.c_functionals <;>
    cases hmp : d.c_mp2 <;>
    refine ⟨?_, ?_, ?_⟩ <;>
    simp [buildBlankPath, hhf, hxf, hcf, hmp,
          foldlC_x_alpha, foldlC_x_beta, foldlC_x_omega,
          applyCMP2_x_alpha, applyCMP2_x_beta, applyCMP2_x_omega,
          foldlX_xHF]

/-- The specification dictionary after the blank-composite path: `x_hf`
gains `alpha = 0.0` exactly when the key was absent. -/
theorem buildBlankPath_snd (env : LibXCEnv) (r : Bool) (d : FunctionalSpec) :
    (buildBlankPath env r d).2 =
      { d with x_hf := d.x_hf.map fun hf => { hf with alpha := some (hf.alpha.getD 0) } } := by
  cases hhf : d.x_hf with
  | none => simp [buildBlankPath, hhf]; rw [← hhf]
  | some hf =>
    cases hxf : d.x_functionals <;> simp [buildBlankPath, hhf, hxf, applyXHF_snd]

/-- The specification dictionary after the dispersion hand-off. -/
theorem applyDispersion_snd (d1 : FunctionalSpec) :
    (applyDispersion d1).2 =
      { d1 with dispersion := d1.dispersion.map fun dd =>
          { dd with citation := some (dd.citation.getD CitationVal.falseLit) } } := by
  cases hdd : d1.dispersion with
  | none => simp [applyDispersion, hdd]; rw [← hdd]
  | some dd => simp [applyDispersion, hdd]

/-- Decidable equality of `Except` values, so that concrete runs of the
embedded code can be checked by evaluation. -/
instance exceptDecEq {ε α : Type _} [DecidableEq ε] [DecidableEq α] :
    DecidableEq (Except ε α) := fun a b =>
  match a, b with
  | .error e1, .error e2 =>
    if h : e1 = e2 then isTrue (by rw [h])
    else isFalse (by intro hh; exact h (Except.error.inj hh))
  | .error _, .ok _ => isFalse (by intro hh; exact Except.noConfusion hh)
  | .ok _, .error _ => isFalse (by intro hh; exact Except.noConfusion hh)
  | .ok v1, .ok v2 =>
    if h : v1 = v2 then isTrue (by rw [h])
    else isFalse (by intro hh; exact h (Except.ok.inj hh))

/-! Claim theorems. -/

/-- C2: a specification in which `xc_functionals` co-occurs with
`x_functionals` makes `check_consistency` raise at the
`DuplicateExchangeSpec` site, but what reaches the caller is the
`NameError` for the unbound variable `name` used in the message — not a
`ValidationError` of kind `DuplicateExchangeSpec` as the claim states. -/
theorem c2_duplicate_exchange_raises_nameerror :
    check_consistency specDupX "f" = .error (.nameErrorAt .duplicateExchangeSpec) ∧
    check_consistency specDupX "f" ≠ .error (.validationError .duplicateExchangeSpec) := by
  decide

/-- C3: a specification with two `x_functionals` entries both flagging
`use_libxc` passes `check_consistency` without any error, because the
source tests `"use_libxc" in func_dictionary["x_functionals"].keys()`
(the component ids) instead of the entry parameters, so the counter stays
at zero and the `DuplicateHybridRequest` check never fires. -/
theorem c3_two_libxc_passes_validation :
    check_consistency specTwoLibxc "f" = .ok () ∧
    check_consistency specTwoLibxc "f" ≠ .error (.nameErrorAt .duplicateHybridRequest) ∧
    check_consistency specTwoLibxc "f" ≠ .error (.validationError .duplicateHybridRequest) := by
  decide

/-- C6: for every specification with neither exchange fields
(`xc_functionals`, `x_functionals`, `x_hf`) nor — in particular —
correlation fields, `check_consistency` raises at the missing-exchange
check, which runs before the missing-correlation check and short-circuits
it; what is raised there, however, is the `NameError` for the unbound
variable `name`, not the `MissingExchangeSpec` `ValidationError`. -/
theorem c6_missing_exchange_checked_first (d : FunctionalSpec) (nm : String)
    (h1 : d.xc_functionals = none) (h2 : d.x_functionals = none)
    (h3 : d.x_hf = none) :
    check_consistency d nm = .error (.nameErrorAt .missingExchangeSpec) := by
  unfold check_consistency
  simp [h1, h2, h3]

/-- Witness for `c6_missing_exchange_checked_first` at the empty
specification. -/
theorem c6_missing_exchange_checked_first_witness :
    (specEmptyFields.xc_functionals = none ∧ specEmptyFields.x_functionals = none ∧
     specEmptyFields.x_hf = none ∧ specEmptyFields.c_functionals = none ∧
     specEmptyFields.c_mp2 = none) ∧
    check_consistency specEmptyFields "f" = .error (.nameErrorAt .missingExchangeSpec) :=
  ⟨by decide, c6_missing_exchange_checked_first specEmptyFields "f" rfl rfl rfl⟩

/-- C1 counterexample: the registry built from a specification named `N`
with aliases `A` and `B` answers the uppercased spellings only; the
case variant `"n"` of the canonical name misses, and `build` on it raises
`KeyError` instead of succeeding, refuting case-insensitive lookup. -/
theorem c1_counterexample :
    regLookup (build_functionals_registry dash0 [fAlias]) "N" = some fAlias ∧
    regLookup (build_functionals_registry dash0 [fAlias]) "n" = none ∧
    build_superfunctional_from_dictionary env0 (build_functionals_registry dash0 [fAlias])
      "n" 5 1 true = .error .keyError := by
  decide

/-- C1 amended: every spelling of a registered specification (its canonical
name and each alias) is reachable under its UPPERCASED form, returning the
identical specification, provided neither the entry's own dispersion
expansion nor a later entry rebinds that key.  Lookup is an exact string
match, so case-insensitivity holds only through this uppercasing at
registration time. -/
theorem c1_upper_spelling_lookup (dash : DashTable) (pre post : List FunctionalSpec)
    (F : FunctionalSpec) (sp : String)
    (hsp : sp = F.name ∨ sp ∈ F.aliases.getD [])
    (hfresh1 : upper sp ∉ (dispersionPairs dash F).map Prod.fst)
    (hfresh2 : ∀ G ∈ post, upper sp ∉ (writtenPairs dash G).map Prod.fst) :
    regLookup (build_functionals_registry dash (pre ++ F :: post)) (upper sp) = some F := by
  rw [buildRegistry_decomp, regLookup_foldl_post dash post _ _ hfresh2]
  apply regLookup_addFunctional_plain dash _ F _ _ hfresh1
  unfold get_functional_aliases
  cases hal : F.aliases with
  | none =>
    rcases hsp with rfl | h
    · simp
    · rw [hal] at h; simp at h
  | some al =>
    rcases hsp with rfl | h
    · simp
    · rw [hal] at h
      simp only [Option.getD_some] at h
      exact List.mem_append.mpr (.inl (List.mem_map.mpr ⟨sp, h, rfl⟩))

/-- Witness for `c1_upper_spelling_lookup`: the alias spelling `A` of the
`N`/`A`/`B` specification is found under `upper "A"`. -/
theorem c1_upper_spelling_lookup_witness :
    regLookup (build_functionals_registry dash0 ([] ++ fAlias :: [])) (upper "A") =
      some fAlias :=
  c1_upper_spelling_lookup dash0 [] [] fAlias "A" (by decide) (by decide) (by decide)

/-- Expected composite for `buildFromSpec env0 specHFNoAlpha "f" 5 1 true`. -/
def supBlankF : SuperFunctional :=
  { max_points := 5, deriv := 1, name := "F", allocated := true }

/-- Post-build value of `specHFNoAlpha`: the shared dictionary gained
`alpha = 0.0` under `x_hf`. -/
def specHFNoAlphaMut : FunctionalSpec :=
  { specHFNoAlpha with x_hf := some { alpha := some 0 } }

/-- C4 counterexample: building the registered specification whose `x_hf`
lacks `alpha` hands back a CHANGED specification dictionary — the shared
`x_hf` sub-dictionary now carries `alpha = 0.0` — refuting the claim that
no registered specification is ever mutated by `build`. -/
theorem c4_counterexample :
    buildFromSpec env0 specHFNoAlpha "f" 5 1 true =
      .ok (supBlankF, none, specHFNoAlphaMut) ∧
    specHFNoAlphaMut ≠ specHFNoAlpha := by
  decide

/-- C4 amended: a successful `build` changes the specification dictionary
in exactly two places — a present `x_hf` lacking `alpha` gains
`alpha = 0.0`, and a present `dispersion` lacking `citation` gains the
`False` sentinel; all other parts of the stored specification (and every
specification with those keys already present) are left unchanged, and
`check_consistency` itself never writes. -/
theorem c4_mutation_extent (env : LibXCEnv) (d : FunctionalSpec)
    (nm : String) (np dv : Nat) (r : Bool) (s : SuperFunctional)
    (dp : Option DispersionDict) (d' : FunctionalSpec)
    (hok : buildFromSpec env d nm np dv r = .ok (s, dp, d')) :
    d' = { d with
      x_hf := d.x_hf.map fun hf => { hf with alpha := some (hf.alpha.getD 0) },
      dispersion := d.dispersion.map fun dd =>
        { dd with citation := some (dd.citation.getD CitationVal.falseLit) } } := by
  have hc := buildFromSpec_ok_check env d nm np dv r _ hok
  cases hxc : d.xc_functionals with
  | some xcKeys =>
    have hhf : d.x_hf = none := by
      cases hhf : d.x_hf with
      | none => rfl
      | some hf =>
        have hx := check_ok_xhf_no_xc d nm hc (by rw [hhf]; rfl)
        rw [hxc] at hx
        exact Option.noConfusion hx
    rw [buildFromSpec_xc_eq env d nm np dv r xcKeys hxc hc] at hok
    cases hxp : buildXcPath env nm r xcKeys with
    | error e => rw [hxp] at hok; exact Except.noConfusion hok
    | ok sup1 =>
      rw [hxp] at hok
      simp only [Except.ok.injEq, Prod.mk.injEq] at hok
      obtain ⟨-, -, hd'⟩ := hok
      rw [← hd', applyDispersion_snd, hhf, hxc]
      rfl
  | none =>
    rw [buildFromSpec_blank_eq env d nm np dv r hxc hc] at hok
    simp only [Except.ok.injEq, Prod.mk.injEq] at hok
    obtain ⟨-, -, hd'⟩ := hok
    rw [← hd', applyDispersion_snd, buildBlankPath_snd, hxc]

/-- Witness for `c4_mutation_extent` at the `x_hf`-without-`alpha`
specification. -/
theorem c4_mutation_extent_witness :
    buildFromSpec env0 specHFNoAlpha "f" 5 1 true =
      .ok (supBlankF, none, specHFNoAlphaMut) ∧
    specHFNoAlphaMut = { specHFNoAlpha with
      x_hf := specHFNoAlpha.x_hf.map fun hf => { hf with alpha := some (hf.alpha.getD 0) },
      dispersion := specHFNoAlpha.dispersion.map fun dd =>
        { dd with citation := some (dd.citation.getD CitationVal.falseLit) } } :=
  ⟨by decide,
   c4_mutation_extent env0 specHFNoAlpha "f" 5 1 true supBlankF none specHFNoAlphaMut
     (by decide)⟩

/-- C5: whenever `x_hf` is present, the finalized composite's overall
exchange mixing comes directly from `x_hf` — `alpha`, `beta` and `omega`
each equal the `x_hf` value when given and `0.0` otherwise — regardless of
any candidate hybrid triple collected from the `x_functionals` entries. -/
theorem c5_xhf_sets_mixing (env : LibXCEnv) (d : FunctionalSpec) (nm : String)
    (np dv : Nat) (r : Bool) (s : SuperFunctional) (dp : Option DispersionDict)
    (d' : FunctionalSpec) (hf : XHF) (hhf : d.x_hf = some hf)
    (hok : buildFromSpec env d nm np dv r = .ok (s, dp, d')) :
    s.x_alpha = hf.alpha.getD 0 ∧ s.x_beta = hf.beta.getD 0 ∧
    s.x_omega = hf.omega.getD 0 := by
  have hc := buildFromSpec_ok_check env d nm np dv r _ hok
  have hxc : d.xc_functionals = none := check_ok_xhf_no_xc d nm hc (by rw [hhf]; rfl)
  rw [buildFromSpec_blank_eq env d nm np dv r hxc hc] at hok
  simp only [Except.ok.injEq, Prod.mk.injEq] at hok
  obtain ⟨hs, -, -⟩ := hok
  rw [← hs]
  rcases finalizeSup_x_fields nm np dv (applyOverrides d (buildBlankPath env r d).1)
    with ⟨f1, f2, f3, -⟩
  rcases applyOverrides_x_fields d (buildBlankPath env r d).1 with ⟨o1, o2, o3, -⟩
  rcases buildBlankPath_x_hf env r d hf hhf with ⟨b1, b2, b3⟩
  exact ⟨by rw [f1, o1, b1], by rw [f2, o2, b2], by rw [f3, o3, b3]⟩

/-- Expected composite for `buildFromSpec env0 specHFFull "f" 5 1 true`. -/
def supHFFull : SuperFunctional :=
  { x_alpha := 3, x_beta := 5, x_omega := 9,
    max_points := 5, deriv := 1, name := "F", allocated := true }

/-- Witness for `c5_xhf_sets_mixing` at a specification with explicit
`x_hf` values. -/
theorem c5_xhf_sets_mixing_witness :
    (specHFFull.x_hf =
      some { alpha := some 3, beta := some 5, omega := some 9 } ∧
     buildFromSpec env0 specHFFull "f" 5 1 true = .ok (supHFFull, none, specHFFull)) ∧
    (supHFFull.x_alpha = (some (3 : ℚ)).getD 0 ∧
     supHFFull.x_beta = (some (5 : ℚ)).getD 0 ∧
     supHFFull.x_omega = (some (9 : ℚ)).getD 0) :=
  ⟨⟨by decide, by decide⟩,
   c5_xhf_sets_mixing env0 specHFFull "f" 5 1 true supHFFull none specHFFull
     { alpha := some 3, beta := some 5, omega := some 9 } (by decide)
     (by decide)⟩

/-- C8: without `x_hf` (and outside the bundled path), the finalized
composite's overall exchange mixing is taken from the candidate
camb-range-separated triple of the (at most one) hybrid-requesting
`x_functionals` entry as `(ALPHA+BETA, ALPHA-BETA, OMEGA)`, and is all
zeros when no entry requested hybrid coefficients. -/
theorem c8_candidate_triple_applied (env : LibXCEnv) (d : FunctionalSpec)
    (nm : String) (np dv : Nat) (r : Bool) (s : SuperFunctional)
    (dp : Option DispersionDict) (d' : FunctionalSpec)
    (hxc : d.xc_functionals = none) (hhf : d.x_hf = none)
    (hok : buildFromSpec env d nm np dv r = .ok (s, dp, d')) :
    ((d.x_functionals.getD []).filter (fun e => e.2.use_libxc == some true) = [] →
      s.x_alpha = 0 ∧ s.x_beta = 0 ∧ s.x_omega = 0) ∧
    (∀ e0, (d.x_functionals.getD []).filter (fun e => e.2.use_libxc == some true) = [e0] →
      s.x_alpha = (queryCam env ("XC_" ++ e0.1) r).ALPHA +
                  (queryCam env ("XC_" ++ e0.1) r).BETA ∧
      s.x_beta = (queryCam env ("XC_" ++ e0.1) r).ALPHA -
                 (queryCam env ("XC_" ++ e0.1) r).BETA ∧
      s.x_omega = (queryCam env ("XC_" ++ e0.1) r).OMEGA) := by
  have hc := buildFromSpec_ok_check env d nm np dv r _ hok
  rw [buildFromSpec_blank_eq env d nm np dv r hxc hc] at hok
  simp only [Except.ok.injEq, Prod.mk.injEq] at hok
  obtain ⟨hs, -, -⟩ := hok
  rcases finalizeSup_x_fields nm np dv (applyOverrides d (buildBlankPath env r d).1)
    with ⟨f1, f2, f3, -⟩
  rcases applyOverrides_x_fields d (buildBlankPath env r d).1 with ⟨o1, o2, o3, -⟩
  rcases buildBlankPath_x_nohf env r d hhf with ⟨b1, b2, b3⟩
  constructor
  · intro hfil
    have hfold := foldl_camStep_of_filter_nil env r _ hfil ⟨0, 0, 0⟩
    refine ⟨?_, ?_, ?_⟩
    · rw [← hs, f1, o1, b1, hfold]; norm_num
    · rw [← hs, f2, o2, b2, hfold]; norm_num
    · rw [← hs, f3, o3, b3, hfold]
  · intro e0 hfil
    have hfold := foldl_camStep_of_filter_single env r _ e0 hfil ⟨0, 0, 0⟩
    refine ⟨?_, ?_, ?_⟩
    · rw [← hs, f1, o1, b1, hfold]
    · rw [← hs, f2, o2, b2, hfold]
    · rw [← hs, f3, o3, b3, hfold]

/-- Witness for `c8_candidate_triple_applied` at the specification with one
hybrid-requesting exchange entry. -/
theorem c8_candidate_triple_applied_witness :
    (specOneLibxc.xc_functionals = none ∧ specOneLibxc.x_hf = none ∧
     buildFromSpec env0 specOneLibxc "f" 5 1 true =
       .ok (supOneLibxc, none, specOneLibxc) ∧
     (specOneLibxc.x_functionals.getD []).filter
       (fun e => e.2.use_libxc == some true) = [("pbe", { use_libxc := some true })]) ∧
    (supOneLibxc.x_alpha =
       (queryCam env0 ("XC_" ++ "pbe") true).ALPHA +
       (queryCam env0 ("XC_" ++ "pbe") true).BETA ∧
     supOneLibxc.x_beta =
       (queryCam env0 ("XC_" ++ "pbe") true).ALPHA -
       (queryCam env0 ("XC_" ++ "pbe") true).BETA ∧
     supOneLibxc.x_omega = (queryCam env0 ("XC_" ++ "pbe") true).OMEGA) :=
  ⟨⟨rfl, rfl, rfl, by decide⟩,
   (c8_candidate_triple_applied env0 specOneLibxc "f" 5 1 true supOneLibxc none
      specOneLibxc rfl rfl rfl).2
     ("pbe", { use_libxc := some true }) (by decide)⟩

/-- C9: on the bundled path, the single functional object is built from
`XC_` prefixed to exactly one component id — the LAST iterated key of
`xc_functionals` — even when several component ids are present. -/
theorem c9_last_xc_component (env : LibXCEnv) (d : FunctionalSpec) (nm : String)
    (np dv : Nat) (r : Bool) (s : SuperFunctional) (dp : Option DispersionDict)
    (d' : FunctionalSpec) (xcKeys : List String)
    (hxc : d.xc_functionals = some xcKeys)
    (hok : buildFromSpec env d nm np dv r = .ok (s, dp, d')) :
    ∃ k, xcKeys.getLast? = some k ∧ s.xc_built = some ("XC_" ++ k) := by
  have hc := buildFromSpec_ok_check env d nm np dv r _ hok
  rw [buildFromSpec_xc_eq env d nm np dv r xcKeys hxc hc] at hok
  cases hxp : buildXcPath env nm r xcKeys with
  | error e => rw [hxp] at hok; exact Except.noConfusion hok
  | ok sup1 =>
    rw [hxp] at hok
    simp only [Except.ok.injEq, Prod.mk.injEq] at hok
    obtain ⟨hs, -, -⟩ := hok
    rcases buildXcPath_ok env nm r xcKeys sup1 hxp with ⟨k, hk, hb⟩
    refine ⟨k, hk, ?_⟩
    rw [← hs]
    rcases finalizeSup_x_fields nm np dv (applyOverrides d sup1) with ⟨-, -, -, f4⟩
    rcases applyOverrides_x_fields d sup1 with ⟨-, -, -, o4⟩
    rw [f4, o4, hb]

/-- Witness for `c9_last_xc_component` at the two-component bundle. -/
theorem c9_last_xc_component_witness :
    (specXC.xc_functionals = some ["one", "two"] ∧
     buildFromSpec env0 specXC "f" 5 1 true = .ok (supXC, none, specXC)) ∧
    (∃ k, ["one", "two"].getLast? = some k ∧ supXC.xc_built = some ("XC_" ++ k)) :=
  ⟨⟨rfl, by decide⟩,
   c9_last_xc_component env0 specXC "f" 5 1 true supXC none specXC ["one", "two"]
     rfl (by decide)⟩

/-- C7: for a base specification without a dispersion field, an alias of
which matches (case-insensitively) a key of the coefficient table under
scheme `s`, the built registry binds `<alias>-<SHORTNAME>` — for every
alias and every short name resolving to `s` — to a variant whose
dispersion `type` is `s` and whose name is the base name with `-<scheme>`
appended; the freshness hypotheses exclude a colliding composite key of a
different scheme and rebinding by later definition-source entries
(last-writer-wins overwrites are documented behaviour). -/
theorem c7_dispersion_expansion (dash : DashTable) (pre post : List FunctionalSpec)
    (F : FunctionalSpec) (a sn s df : String) (row : DashRow)
    (h1 : F.dispersion = none)
    (h2 : (sn, s) ∈ dispersion_names)
    (h3 : (df, row) ∈ dash s)
    (h3b : (get_functional_aliases F).contains (upper df) = true)
    (h4 : a ∈ get_functional_aliases F)
    (h5 : ∀ e ∈ dispersion_names, ∀ a' ∈ get_functional_aliases F,
      a' ++ "-" ++ upper e.1 = a ++ "-" ++ upper sn → e.2 = s)
    (h6 : ∀ G ∈ post, (a ++ "-" ++ upper sn) ∉ (writtenPairs dash G).map Prod.fst) :
    ∃ g, regLookup (build_functionals_registry dash (pre ++ F :: post))
           (a ++ "-" ++ upper sn) = some g ∧
         g.name = F.name ++ "-" ++ s ∧
         ∃ dd, g.dispersion = some dd ∧ dd.type = s := by
  rw [buildRegistry_decomp, regLookup_foldl_post dash post _ _ h6]
  have hkey : (a ++ "-" ++ upper sn) ∈ (dispersionPairs dash F).map Prod.fst :=
    List.mem_map.mpr
      ⟨(a ++ "-" ++ upper sn, mkVariant F s row),
       variant_mem_dispersionPairs dash F sn s df row a h1 h2 h3 h3b h4, rfl⟩
  rcases regLookup_addFunctional_composite dash _ F _ hkey with ⟨v, hv, hm⟩
  rcases mem_dispersionPairs dash F _ v hm with ⟨e, he, p, hp, hpc, a', ha', hk, hveq⟩
  have hs' : e.2 = s := h5 e he a' ha' hk.symm
  refine ⟨v, hv, ?_, ?_⟩
  · rw [hveq]
    show F.name ++ "-" ++ e.2 = F.name ++ "-" ++ s
    rw [hs']
  · rw [hveq]
    exact ⟨_, rfl, hs'⟩

/-- Witness for `c7_dispersion_expansion`: base spec `B88`, scheme
`d3zero`, table key `b88`, short name `d3` — the registry binds `B88-D3`
to the `d3zero` variant. -/
theorem c7_dispersion_expansion_witness :
    ∃ g, regLookup (build_functionals_registry dashB ([] ++ fB88 :: []))
           ("B88" ++ "-" ++ upper "d3") = some g ∧
         g.name = "B88" ++ "-" ++ "d3zero" ∧
         ∃ dd, g.dispersion = some dd ∧ dd.type = "d3zero" :=
  c7_dispersion_expansion dashB [] [] fB88 "B88" "d3" "d3zero" "b88"
    { citation := some "d3cite", params := [("s6", 1)] }
    (by decide) (by decide) (by decide) (by decide) (by decide) (by decide)
    (by decide)

/-- C10: every key of the built registry — plain alias keys and composite
dispersion keys alike — is fully uppercased: no registry key contains a
(basic latin) lowercase letter. -/
theorem c10_registry_keys_uppercase (dash : DashTable)
    (source : List FunctionalSpec) (k : String) (v : FunctionalSpec)
    (h : (k, v) ∈ build_functionals_registry dash source) :
    noLower k = true := by
  suffices haux : ∀ (src : List FunctionalSpec) (reg : Registry),
      (∀ k0 v0, (k0, v0) ∈ reg → noLower k0 = true) →
      ∀ k0 v0, (k0, v0) ∈ src.foldl (addFunctional dash) reg → noLower k0 = true by
    exact haux source [] (by intro k0 v0 h0; cases h0) k v h
  intro src
  induction src with
  | nil => intro reg hreg k0 v0 h0; exact hreg k0 v0 h0
  | cons G t ih =>
    intro reg hreg k0 v0 h0
    rw [List.foldl_cons] at h0
    refine ih (addFunctional dash reg G) ?_ k0 v0 h0
    intro k1 v1 h1
    rw [addFunctional_eq, List.mem_append] at h1
    rcases h1 with h1 | h1
    · exact noLower_writtenPairs dash G k1 v1 (List.mem_reverse.mp h1)
    · exact hreg k1 v1 h1

/-- Witness for `c10_registry_keys_uppercase` at a concrete registry
binding. -/
theorem c10_registry_keys_uppercase_witness :
    ("N", fAlias) ∈ build_functionals_registry dash0 [fAlias] ∧
    noLower "N" = true :=
  ⟨by decide,
   c10_registry_keys_uppercase dash0 [fAlias] "N" fAlias (by decide)⟩
